import Mathlib

/-!
# Albius: bootloader configuration (`core/grub.go`) and LVM volume references

A shallow embedding of `core/grub.go`.  Go strings are byte sequences, the Go
map `GrubConfig` is a finite map whose iteration order is supplied by the
runtime, and every function that touches the file system threads an explicit
`FileSystem` state that also records the calls made to package `os`.
-/

namespace Albius

set_option maxRecDepth 8192

/-! ## Go values -/

/-- A byte of a Go string. -/
abbrev Byte := UInt8

/-- A Go `string`: an immutable sequence of bytes. -/
abbrev GoString := List Byte

/-- The bytes (UTF-8) of a string literal of the source. -/
def lit (s : String) : GoString := s.data.flatMap String.utf8EncodeChar

/-- The newline byte, the separator `"\n"` of the source. -/
def NL : Byte := 10

/-- The byte of the separator `"="` of the source. -/
def EQ : Byte := 61

/-- Error numbers reported by the operating system. -/
inductive Errno
  | ENOENT
  | EACCES
  | EPERM
  | EISDIR
  | ENOTDIR
  | ENOSPC
  | EROFS
  | EBUSY
  deriving DecidableEq, Repr

/-- The text of an error number, `syscall.Errno.Error`. -/
def Errno.Error : Errno → GoString
  | .ENOENT => lit "no such file or directory"
  | .EACCES => lit "permission denied"
  | .EPERM => lit "operation not permitted"
  | .EISDIR => lit "is a directory"
  | .ENOTDIR => lit "not a directory"
  | .ENOSPC => lit "no space left on device"
  | .EROFS => lit "read-only file system"
  | .EBUSY => lit "device or resource busy"

/-- A non-nil Go `error` value: either the `*fs.PathError` that package `os`
returns, or an error that carries only a message (`errors.New`, `fmt.Errorf`
without `%w`). The Go `error` interface itself is `Option GoError`, with
`none` for `nil`. -/
inductive GoError
  | PathError (Op : GoString) (Path : GoString) (Err : Errno)
  | errorString (s : GoString)
  deriving DecidableEq, Repr

/-- The method `Error()` of an error value. -/
def GoError.Error : GoError → GoString
  | .PathError Op Path Err => Op ++ lit " " ++ Path ++ lit ": " ++ Err.Error
  | .errorString s => s

/-- How a Go call ends: it returns its results, or the goroutine panics. -/
inductive Outcome (α : Type)
  | returned (results : α)
  | panicked (msg : GoString)
  deriving DecidableEq, Repr

/-! ## Package `strings`, for a separator of one byte -/

namespace strings

/-- `strings.Index(s, sep)` for a one-byte `sep`: the position of the first
occurrence, `none` standing for `-1`. -/
def Index : GoString → Byte → Option Nat
  | [], _ => none
  | c :: cs, sep => if c = sep then some 0 else (Index cs sep).map (· + 1)

/-- `strings.Count(s, sep)` for a one-byte `sep`. -/
def Count (s : GoString) (sep : Byte) : Nat := s.count sep

/-- The loop of `strings.genSplit`: at most `k` further cuts, then the
unsplit remainder as the last piece. -/
def genSplitLoop (sep : Byte) : Nat → GoString → List GoString
  | 0, s => [s]
  | k + 1, s =>
    match Index s sep with
    | none => [s]
    | some m => s.take m :: genSplitLoop sep k (s.drop (m + 1))

/-- `strings.genSplit(s, sep, 0, n)` for a one-byte `sep`: `n = 0` gives no
pieces, `n < 0` means all pieces, `n > 0` at most `n` pieces; the number of
pieces is capped at `len(s) + 1`. -/
def genSplit (s : GoString) (sep : Byte) (n : Int) : List GoString :=
  if n = 0 then []
  else
    let n := if n < 0 then Count s sep + 1 else n.toNat
    let n := if n > s.length + 1 then s.length + 1 else n
    genSplitLoop sep (n - 1) s

/-- `strings.Split(s, sep)`. -/
def Split (s : GoString) (sep : Byte) : List GoString := genSplit s sep (-1)

/-- `strings.SplitN(s, sep, n)`. -/
def SplitN (s : GoString) (sep : Byte) (n : Int) : List GoString := genSplit s sep n

end strings

/-! ## Package `fmt`, for the verb `%s` -/

namespace fmt

/-- `fmt.Sprintf(format, args...)` for formats whose only verb is `%s` and
whose operands are strings, no more of them than verbs: each `%s` is replaced by
the next operand (by `%!s(MISSING)` when the operands have run out), every other
byte is copied, and a `%` that ends the format prints `%!(NOVERB)`. -/
def Sprintf : GoString → List GoString → GoString
  | [], _ => []
  | [c], _ => if c = 37 then lit "%!(NOVERB)" else [c]
  | c :: d :: rest, args =>
    if c = 37 ∧ d = 115 then
      match args with
      | a :: args' => a ++ Sprintf rest args'
      | [] => lit "%!s(MISSING)" ++ Sprintf rest []
    else c :: Sprintf (d :: rest) args

/-- `fmt.Errorf(format, args...)` without `%w`: an error carrying the
formatted message. An operand that is an error is passed as its `Error()`
text, which is what `%s` prints for it. -/
def Errorf (format : GoString) (args : List GoString) : GoError :=
  .errorString (Sprintf format args)

end fmt

/-! ## The file system and package `os` -/

/-- A node of the file system that a path resolves to. `readErr` is the error
number with which reading it fails (`EISDIR` for a directory, `EACCES` for a
file without read permission), `none` for a readable regular file. -/
structure File where
  data : GoString
  readErr : Option Errno
  deriving DecidableEq, Repr

/-- How `os.WriteFile` fails on a path: when opening (nothing changes), or
after the file was created or truncated and only `written` bytes got out. -/
inductive WriteFault
  | atOpen (e : Errno)
  | atWrite (e : Errno) (written : Nat)
  deriving DecidableEq, Repr

/-- A call to package `os`. -/
inductive Syscall
  | Stat (name : GoString)
  | ReadFile (name : GoString)
  | WriteFile (name : GoString) (data : GoString)
  | Remove (name : GoString)
  deriving DecidableEq, Repr

/-- The state of the file system. `node` gives the node a path resolves to,
`none` when it resolves to nothing. For a path that resolves to nothing,
`lookupErr` is the error number with which the resolution fails before the last
element is looked up (`ENOTDIR` when an element on the way is a regular file,
`EACCES` when a directory on the way may not be searched, in which case a file
behind it cannot be reached and counts as not resolved), `none` when the path
is plainly absent, which is `ENOENT`. `writeFault` and `removeErr` are the
faults that make a write or a removal fail, and `trace` holds the calls made so
far, oldest first. Links are not modelled: distinct paths are distinct files. -/
structure FileSystem where
  node : GoString → Option File
  lookupErr : GoString → Option Errno
  writeFault : GoString → Option WriteFault
  removeErr : GoString → Option Errno
  trace : List Syscall

/-- The error number that a call on a path that resolves to nothing fails
with: the failure of the resolution, or `ENOENT` for a plainly absent path. -/
def FileSystem.absentErr (fs : FileSystem) (name : GoString) : Errno :=
  match fs.lookupErr name with
  | some e => e
  | none => .ENOENT

namespace os

/-- `os.IsNotExist(err)`. -/
def IsNotExist : Option GoError → Bool
  | some (.PathError _ _ .ENOENT) => true
  | _ => false

/-- `os.Stat(name)`; the `FileInfo` result is dropped, every caller in
`grub.go` discards it. On a path that resolves to nothing the call fails with
`ENOENT`, or with the error of the resolution (`ENOTDIR`, `EACCES`), for which
`os.IsNotExist` is false. -/
def Stat (fs : FileSystem) (name : GoString) : Option GoError × FileSystem :=
  let fs' := { fs with trace := fs.trace ++ [Syscall.Stat name] }
  match fs.node name with
  | none => (some (.PathError (lit "stat") name (fs.absentErr name)), fs')
  | some _ => (none, fs')

/-- The operation named in the error of a failing `os.ReadFile`: a directory is
opened and then fails to be read, every other failure is met when opening. -/
def readOp (e : Errno) : GoString :=
  if e = .EISDIR then lit "read" else lit "open"

/-- `os.ReadFile(name)`. -/
def ReadFile (fs : FileSystem) (name : GoString) :
    (GoString × Option GoError) × FileSystem :=
  let fs' := { fs with trace := fs.trace ++ [Syscall.ReadFile name] }
  match fs.node name with
  | none => (([], some (.PathError (lit "open") name (fs.absentErr name))), fs')
  | some f =>
    match f.readErr with
    | some e => (([], some (.PathError (readOp e) name e)), fs')
    | none => ((f.data, none), fs')

/-- The node left at `name` by a write of `data`: an existing node keeps its
read status, a new file is a readable regular file. -/
def written (fs : FileSystem) (name : GoString) (data : GoString) : File :=
  match fs.node name with
  | some f => { f with data := data }
  | none => { data := data, readErr := none }

/-- `os.WriteFile(name, data, perm)`: create or truncate, then write all of
`data`. The permission bits are not modelled. -/
def WriteFile (fs : FileSystem) (name : GoString) (data : GoString) :
    Option GoError × FileSystem :=
  let fs' := { fs with trace := fs.trace ++ [Syscall.WriteFile name data] }
  match fs.writeFault name with
  | some (.atOpen e) => (some (.PathError (lit "open") name e), fs')
  | some (.atWrite e n) =>
    (some (.PathError (lit "write") name e),
      { fs' with node := fun p => if p = name then some (written fs name (data.take n))
                                  else fs.node p })
  | none =>
    (none, { fs' with node := fun p => if p = name then some (written fs name data)
                                       else fs.node p })

/-- `os.Remove(name)`. -/
def Remove (fs : FileSystem) (name : GoString) : Option GoError × FileSystem :=
  let fs' := { fs with trace := fs.trace ++ [Syscall.Remove name] }
  match fs.node name with
  | none => (some (.PathError (lit "remove") name (fs.absentErr name)), fs')
  | some _ =>
    match fs.removeErr name with
    | some e => (some (.PathError (lit "remove") name e), fs')
    | none => (none, { fs' with node := fun p => if p = name then none else fs.node p })

end os

/-! ## `core/grub.go` -/

/-- The Go type `GrubConfig`, `map[string]string`. -/
abbrev GrubConfig := Finmap (fun _ : GoString => GoString)

/-- One run of `for k, v := range config`: the runtime visits every entry of
the map exactly once, in an order of its choosing. -/
structure RangeOrder (config : GrubConfig) where
  visits : List (Sigma (fun _ : GoString => GoString))
  once : (visits : Multiset (Sigma (fun _ : GoString => GoString))) = config.entries

/-- The Go type `FirmwareType`, a string type. -/
abbrev FirmwareType := GoString

/-- The constant `BIOS`. -/
def BIOS : FirmwareType := lit "i386-pc"

/-- The constant `EFI`. -/
def EFI : FirmwareType := lit "x86_64-efi"

/-- The message of the run-time panic raised by the index expression `kv[1]`
on a slice of length 1. -/
def indexPanic : GoString := lit "runtime error: index out of range [1] with length 1"

/-- The loop `for _, line := range lines` of `GetGrubConfig`: each line is cut
at its first `=` and `config[kv[0]] = kv[1]` is executed; the index expression
`kv[1]` panics when the cut produced one piece only. -/
def GetGrubConfig.loop : List GoString → GrubConfig → Outcome GrubConfig
  | [], config => .returned config
  | line :: lines, config =>
    let kv := strings.SplitN line EQ 2
    match kv[0]?, kv[1]? with
    | some k, some v => loop lines (config.insert k v)
    | _, _ => .panicked indexPanic

/-- The function `GetGrubConfig(targetRoot)`; `Join` is `filepath.Join`. The
results are the pair `(GrubConfig, error)`, a nil map being `none`. -/
def GetGrubConfig (Join : List GoString → GoString) (fs : FileSystem)
    (targetRoot : GoString) : Outcome (Option GrubConfig × Option GoError) × FileSystem :=
  let targetRootGrubFile := Join [targetRoot, lit "/etc/default/grub"]
  match os.Stat fs targetRootGrubFile with
  | (err, fs₁) =>
    if os.IsNotExist err then (.returned (some ∅, none), fs₁)
    else
      match os.ReadFile fs₁ targetRootGrubFile with
      | ((_, some err), fs₂) =>
        (.returned (none,
          some (fmt.Errorf (lit "Failed to read GRUB config file: %s") [err.Error])), fs₂)
      | ((content, none), fs₂) =>
        let lines := strings.Split content NL
        match GetGrubConfig.loop lines ∅ with
        | .returned config => (.returned (some config, none), fs₂)
        | .panicked msg => (.panicked msg, fs₂)

/-- The bytes that `WriteGrubConfig` accumulates in `fileContents` while it
ranges over the map. -/
def WriteGrubConfig.fileContents {config : GrubConfig} (range : RangeOrder config) :
    GoString :=
  range.visits.foldl (fun fileContents kv =>
    let line := fmt.Sprintf (lit "%s=%s\n") [kv.1, kv.2]
    fileContents ++ line) []

/-- The function `WriteGrubConfig(targetRoot, config)`; `range` is the order in
which this run of the loop visits the map. -/
def WriteGrubConfig (Join : List GoString → GoString) (fs : FileSystem)
    (targetRoot : GoString) (config : GrubConfig) (range : RangeOrder config) :
    Option GoError × FileSystem :=
  let fileContents := WriteGrubConfig.fileContents range
  let targetRootGrubFile := Join [targetRoot, lit "/etc/default/grub"]
  match os.WriteFile fs targetRootGrubFile fileContents with
  | (some err, fs₁) =>
    (some (fmt.Errorf (lit "Failed to write GRUB config file: %s") [err.Error]), fs₁)
  | (none, fs₁) => (none, fs₁)

/-- The function `RemoveGrubScript(targetRoot, scriptName)`. -/
def RemoveGrubScript (Join : List GoString → GoString) (fs : FileSystem)
    (targetRoot scriptName : GoString) : Option GoError × FileSystem :=
  let targetRootPath := Join [targetRoot, lit "/etc/grub.d", scriptName]
  match os.Stat fs targetRootPath with
  | (err, fs₁) =>
    if os.IsNotExist err then
      (some (fmt.Errorf (lit "Error removing GRUB script: %s does not exist")
        [targetRootPath]), fs₁)
    else
      match os.Remove fs₁ targetRootPath with
      | (some err, fs₂) =>
        (some (fmt.Errorf (lit "Error removing GRUB script: %s") [err.Error]), fs₂)
      | (none, fs₂) => (none, fs₂)

/-- The function `RunGrubInstall(targetRoot, bootDirectory, diskPath, target)`.
`RunInChroot` is the chroot command runner, defined elsewhere in the package:
it takes the state of the machine, the root and the command line, and gives
its error result and the state it leaves. -/
def RunGrubInstall {σ : Type} (RunInChroot : σ → GoString → GoString → Option GoError × σ)
    (s : σ) (targetRoot bootDirectory diskPath : GoString) (target : FirmwareType) :
    Option GoError × σ :=
  let grubInstallCmd := lit "grub-install --boot-directory %s --target=%s %s"
  match RunInChroot s targetRoot
      (fmt.Sprintf grubInstallCmd [bootDirectory, target, diskPath]) with
  | (some err, s₁) =>
    (some (fmt.Errorf (lit "Failed to run grub-install: %s") [err.Error]), s₁)
  | (none, s₁) => (none, s₁)

/-- Repeated path separators collapse into one. -/
def squeeze : GoString → GoString
  | [] => []
  | [c] => [c]
  | c :: d :: rest =>
    if c = 47 ∧ d = 47 then squeeze (d :: rest) else c :: squeeze (d :: rest)

/-- The function `filepath.Join` on operands that hold no `.` or `..` element and
do not end in a separator, used at concrete inputs: the non-empty operands are
joined by `/` and repeated separators collapse, so that `/mnt` and
`/etc/default/grub` give `/mnt/etc/default/grub`. -/
def joinClean (elem : List GoString) : GoString :=
  squeeze ([47].intercalate (elem.filter (fun e => e ≠ [])))

/-- A file system without files and without faults, on which nothing has
been called yet. -/
def emptyFS : FileSystem :=
  { node := fun _ => none, lookupErr := fun _ => none, writeFault := fun _ => none,
    removeErr := fun _ => none,
    trace := [] }

/-- A target root `/mnt` in which `/mnt/etc` is a regular file: no path below
`/mnt/etc` resolves, the resolution failing with `ENOTDIR`, and nothing can be
created there. -/
def etcIsRegularFile : FileSystem :=
  { node := fun p => if p = lit "/mnt/etc" then some { data := [], readErr := none }
                     else none,
    lookupErr := fun p => if p.take 9 = lit "/mnt/etc/" then some .ENOTDIR else none,
    writeFault := fun p =>
      if p.take 9 = lit "/mnt/etc/" then some (.atOpen .ENOTDIR) else none,
    removeErr := fun _ => none,
    trace := [] }

/-- The file system that holds one readable regular file. -/
def oneFile (name : GoString) (data : GoString) : FileSystem :=
  { emptyFS with node := fun p => if p = name then some { data := data, readErr := none }
                                  else none }

/-- A map with the two entries `GRUB_TIMEOUT -> 5` and `GRUB_DEFAULT -> saved`. -/
def twoEntries : GrubConfig :=
  ((∅ : GrubConfig).insert (lit "GRUB_TIMEOUT") (lit "5")).insert (lit "GRUB_DEFAULT")
    (lit "saved")

/-- One of the two orders in which the runtime may range over `twoEntries`. -/
def twoEntriesRange : RangeOrder twoEntries :=
  ⟨[⟨lit "GRUB_TIMEOUT", lit "5"⟩, ⟨lit "GRUB_DEFAULT", lit "saved"⟩], by decide⟩

/-- The range over the empty map: no entry is visited. -/
def emptyRange : RangeOrder (∅ : GrubConfig) := ⟨[], rfl⟩

/-- A chroot command runner that only records the calls made to it, oldest
first, and answers each call by `result`. -/
def recordingRunner (result : GoString → GoString → Option GoError) :
    List (GoString × GoString) → GoString → GoString →
      Option GoError × List (GoString × GoString) :=
  fun calls root cmd => (result root cmd, calls ++ [(root, cmd)])

/-! ## LVM volume references (`core/lvm`) -/

/-- Modelled from the spec: the physical-volume record of `core/lvm`, whose
source file is not among the sources (only `lvm_test.go` is). Its identity is the
device path; the attributes are the total size, the free size and the volume
group it belongs to, if any. `Gb` is the type of the gigabyte quantities. -/
structure PhysicalVolume (Gb : Type) where
  Path : GoString
  Size : Gb
  Free : Gb
  VgName : Option GoString

/-- Modelled from the spec: a volume reference, the tagged union
`Identity(string) | Record(PV)` of the design notes. -/
inductive PvRef (Gb : Type)
  | Identity (path : GoString)
  | Record (pv : PhysicalVolume Gb)

/-- Modelled from the spec: the single resolution function of `core/lvm`. A
string is taken as the identity as it stands, without existence check; from a
record the identity field is extracted. -/
def PvRef.resolve {Gb : Type} : PvRef Gb → GoString
  | .Identity path => path
  | .Record pv => pv.Path

/-- Modelled from the spec: an invocation of a volume-management utility handed
to the command runner: the utility, the names and device paths it targets, and
the optional size of a resize. -/
structure LvmInvocation (Gb : Type) where
  utility : GoString
  targets : List GoString
  size : Option Gb

/-- Modelled from the spec: the error kinds of `core/lvm` that the operations
below can raise before any invocation. -/
inductive LvmError
  | EmptyMembershipError
  deriving DecidableEq, Repr

/-- Modelled from the spec: `Pvremove(pvRef)` of `core/lvm`, missing from the
sources: the reference is resolved and `pvremove` is invoked on the identity. -/
def Pvremove {Gb : Type} (pv : PvRef Gb) : LvmInvocation Gb :=
  { utility := lit "pvremove", targets := [pv.resolve], size := none }

/-- Modelled from the spec: `Pvresize(pvRef, newSizeOptional)` of `core/lvm`,
missing from the sources: the reference is resolved and `pvresize` is invoked on
the identity, with the size when one is given. -/
def Pvresize {Gb : Type} (pv : PvRef Gb) (setPvSize : Option Gb) : LvmInvocation Gb :=
  { utility := lit "pvresize", targets := [pv.resolve], size := setPvSize }

/-- Modelled from the spec: `Vgcreate(name, ...pvRefs)` of `core/lvm`, missing
from the sources: with no reference it fails with `EmptyMembershipError`,
otherwise every reference is resolved and `vgcreate` is invoked on the name and
the identities, in the order given. -/
def Vgcreate {Gb : Type} (name : GoString) (pvs : List (PvRef Gb)) :
    Except LvmError (LvmInvocation Gb) :=
  match pvs with
  | [] => .error .EmptyMembershipError
  | _ => .ok { utility := lit "vgcreate", targets := name :: pvs.map PvRef.resolve,
               size := none }

/-! ## Lemmas on package `strings` -/

namespace strings

theorem genSplitLoop_nil (sep : Byte) (k : Nat) : genSplitLoop sep k [] = [[]] := by
  cases k <;> simp [genSplitLoop, Index]

theorem genSplitLoop_cons (sep : Byte) (k : Nat) (c : Byte) (cs : GoString) :
    genSplitLoop sep (k + 1) (c :: cs) =
      if c = sep then [] :: genSplitLoop sep k cs
      else (genSplitLoop sep (k + 1) cs).modifyHead (List.cons c) := by
  by_cases h : c = sep
  · simp [genSplitLoop, Index, h]
  · simp only [genSplitLoop, Index, h, if_false]
    cases hI : Index cs sep with
    | none => simp [List.modifyHead]
    | some m => simp [List.modifyHead]

theorem Index_not_mem (sep : Byte) (s : GoString) (h : sep ∉ s) : Index s sep = none := by
  induction s with
  | nil => rfl
  | cons c cs ih =>
    have hc : c ≠ sep := fun e => h (by simp [e])
    have hcs : sep ∉ cs := fun e => h (List.mem_cons_of_mem _ e)
    simp [Index, hc, ih hcs]

theorem genSplitLoop_not_mem (sep : Byte) (k : Nat) (s : GoString) (h : sep ∉ s) :
    genSplitLoop sep k s = [s] := by
  cases k with
  | zero => rfl
  | succ k => simp [genSplitLoop, Index_not_mem sep s h]

theorem splitOn_cons (sep c : Byte) (cs : GoString) :
    (c :: cs).splitOn sep =
      if c = sep then [] :: cs.splitOn sep
      else (cs.splitOn sep).modifyHead (List.cons c) := by
  simp only [List.splitOn, List.splitOnP_cons, beq_iff_eq]

/-- The model of `strings.Split` computes the pieces between the separators. -/
theorem Split_eq_splitOn (s : GoString) (sep : Byte) : Split s sep = s.splitOn sep := by
  have key : ∀ (s : GoString) (k : Nat), s.count sep ≤ k →
      genSplitLoop sep k s = s.splitOn sep := by
    intro s
    induction s with
    | nil => intro k _; simp [genSplitLoop_nil]
    | cons c cs ih =>
      intro k hk
      by_cases h : c = sep
      · subst h
        rw [List.count_cons_self] at hk
        obtain ⟨k, rfl⟩ : ∃ j, k = j + 1 := ⟨k - 1, by omega⟩
        rw [genSplitLoop_cons, if_pos rfl, ih k (by omega), splitOn_cons, if_pos rfl]
      · have hcount : (c :: cs).count sep = cs.count sep := by
          rw [List.count_cons]; simp [h]
        rw [hcount] at hk
        rw [splitOn_cons, if_neg h]
        cases k with
        | zero =>
          have hnot : sep ∉ cs := by
            intro hm
            have := List.count_pos_iff.mpr hm
            omega
          have hnot' : sep ∉ c :: cs := by
            simp only [List.mem_cons, not_or]
            exact ⟨fun e => h e.symm, hnot⟩
          rw [genSplitLoop_not_mem sep 0 _ hnot', ← ih 0 (by omega),
            genSplitLoop_not_mem sep 0 _ hnot]
          rfl
        | succ k => rw [genSplitLoop_cons, if_neg h, ih (k + 1) hk]
  unfold Split genSplit
  simp only [Count]
  have : ¬ ((-1 : Int) = 0) := by decide
  rw [if_neg this]
  simp only [show ((-1 : Int) < 0) from by decide, if_true]
  have hle : s.count sep ≤ s.length := List.count_le_length sep s
  apply key
  split_ifs <;> omega

theorem SplitN_two (s : GoString) (sep : Byte) : SplitN s sep 2 = genSplitLoop sep 1 s := by
  cases s with
  | nil => rfl
  | cons c cs =>
    unfold SplitN genSplit
    have h : ¬ ((2 : Int).toNat > (c :: cs).length + 1) := by
      simp only [List.length_cons]
      have : (2 : Int).toNat = 2 := rfl
      omega
    simp only [show ¬ ((2 : Int) = 0) from by decide, show ¬ ((2 : Int) < 0) from by decide,
      if_false, h]
    rfl

/-- Cutting `k ++ sep :: v` at the first separator gives `k` and `v` when `k` holds
no separator. -/
theorem SplitN_two_cut (k v : GoString) (sep : Byte) (h : sep ∉ k) :
    SplitN (k ++ sep :: v) sep 2 = [k, v] := by
  rw [SplitN_two]
  induction k with
  | nil => simp [genSplitLoop, Index]
  | cons c cs ih =>
    have hc : c ≠ sep := fun e => h (by simp [e])
    have hcs : sep ∉ cs := fun e => h (List.mem_cons_of_mem _ e)
    rw [List.cons_append, genSplitLoop_cons, if_neg hc, ih hcs]
    rfl

/-- A line without separator is not cut. -/
theorem SplitN_two_not_mem (s : GoString) (sep : Byte) (h : sep ∉ s) :
    SplitN s sep 2 = [s] := by
  rw [SplitN_two, genSplitLoop_not_mem sep 1 s h]

/-- The pieces of a content that ends in a newline end in an empty piece. -/
theorem splitOn_newline_end (c : GoString) (sep : Byte) :
    ∃ p ps, (c ++ [sep]).splitOn sep = p :: (ps ++ [[]]) := by
  induction c with
  | nil => exact ⟨[], [], by simp [splitOn_cons]⟩
  | cons x xs ih =>
    obtain ⟨p, ps, h⟩ := ih
    rw [List.cons_append, splitOn_cons, h]
    by_cases hx : x = sep
    · exact ⟨[], p :: ps, by simp [hx]⟩
    · exact ⟨x :: p, ps, by simp [hx, List.modifyHead]⟩

/-- A line has one cut at its first separator only. -/
theorem cut_unique (sep : Byte) (k k' v v' : GoString) (hk : sep ∉ k) (hk' : sep ∉ k')
    (h : k ++ sep :: v = k' ++ sep :: v') : k = k' ∧ v = v' := by
  have h1 := SplitN_two_cut k v sep hk
  rw [h, SplitN_two_cut k' v' sep hk'] at h1
  simp only [List.cons.injEq, and_true] at h1
  exact ⟨h1.1.symm, h1.2.symm⟩

end strings

/-! ## Lemmas on `GetGrubConfig` -/

theorem loop_cons_cut (k v : GoString) (lines : List GoString) (config : GrubConfig)
    (h : EQ ∉ k) :
    GetGrubConfig.loop ((k ++ EQ :: v) :: lines) config =
      GetGrubConfig.loop lines (config.insert k v) := by
  simp [GetGrubConfig.loop, strings.SplitN_two_cut k v EQ h]

theorem loop_cons_panic (line : GoString) (lines : List GoString) (config : GrubConfig)
    (h : EQ ∉ line) :
    GetGrubConfig.loop (line :: lines) config = .panicked indexPanic := by
  simp [GetGrubConfig.loop, strings.SplitN_two_not_mem line EQ h, indexPanic]

/-- A piece without `=` anywhere among the lines makes the loop panic. -/
theorem loop_panics (lines : List GoString) (config : GrubConfig)
    (h : ∃ l ∈ lines, EQ ∉ l) : GetGrubConfig.loop lines config = .panicked indexPanic := by
  induction lines generalizing config with
  | nil => obtain ⟨l, hl, _⟩ := h; cases hl
  | cons line lines ih =>
    by_cases hline : EQ ∈ line
    · obtain ⟨k, v, rfl, hk⟩ := List.eq_append_cons_of_mem hline
      rw [loop_cons_cut k v lines config hk]
      apply ih
      obtain ⟨l, hl, hne⟩ := h
      rcases List.mem_cons.mp hl with rfl | hl'
      · exact absurd hline hne
      · exact ⟨l, hl', hne⟩
    · exact loop_cons_panic line lines config hline

/-- When every line holds `=`, the loop returns, and the map it returns is the
initial map updated by the lines in order. -/
theorem loop_returns (lines : List GoString) (config : GrubConfig)
    (h : ∀ l ∈ lines, EQ ∈ l) :
    ∃ config', GetGrubConfig.loop lines config = .returned config' ∧
      ∀ k : GoString,
        (k ∈ config' ↔ k ∈ config ∨ ∃ l ∈ lines, ∃ v, l = k ++ EQ :: v ∧ EQ ∉ k) ∧
        (∀ pre v post, lines = pre ++ (k ++ EQ :: v) :: post → EQ ∉ k →
          (∀ l ∈ post, ∀ v', l ≠ k ++ EQ :: v') → config'.lookup k = some v) ∧
        ((∀ l ∈ lines, ∀ v', l ≠ k ++ EQ :: v') → config'.lookup k = config.lookup k) := by
  induction lines generalizing config with
  | nil =>
    refine ⟨config, rfl, fun k => ⟨by simp, ?_, fun _ => rfl⟩⟩
    intro pre v post hp
    simp at hp
  | cons line lines ih =>
    obtain ⟨k0, v0, rfl, hk0⟩ := List.eq_append_cons_of_mem (h line (List.mem_cons_self _ _))
    obtain ⟨config', hret, hspec⟩ :=
      ih (config.insert k0 v0) (fun l hl => h l (List.mem_cons_of_mem _ hl))
    refine ⟨config', by rw [loop_cons_cut k0 v0 lines config hk0, hret], fun k => ?_⟩
    obtain ⟨hmem, hlast, hnone⟩ := hspec k
    refine ⟨?_, ?_, ?_⟩
    · rw [hmem, Finmap.mem_insert]
      constructor
      · rintro ((rfl | hk) | ⟨l, hl, v, hv, hkk⟩)
        · exact Or.inr ⟨_, List.mem_cons_self _ _, v0, rfl, hk0⟩
        · exact Or.inl hk
        · exact Or.inr ⟨l, List.mem_cons_of_mem _ hl, v, hv, hkk⟩
      · rintro (hk | ⟨l, hl, v, hv, hkk⟩)
        · exact Or.inl (Or.inr hk)
        · rcases List.mem_cons.mp hl with rfl | hl'
          · exact Or.inl (Or.inl (strings.cut_unique EQ _ _ _ _ hk0 hkk hv).1.symm)
          · exact Or.inr ⟨l, hl', v, hv, hkk⟩
    · intro pre v post hp hk hpost
      cases pre with
      | nil =>
        simp only [List.nil_append, List.cons.injEq] at hp
        obtain ⟨hline, rfl⟩ := hp
        obtain ⟨rfl, rfl⟩ := strings.cut_unique EQ _ _ _ _ hk0 hk hline
        rw [hnone hpost, Finmap.lookup_insert]
      | cons x pre =>
        simp only [List.cons_append, List.cons.injEq] at hp
        exact hlast pre v post hp.2 hk hpost
    · intro hno
      rw [hnone (fun l hl => hno l (List.mem_cons_of_mem _ hl))]
      apply Finmap.lookup_insert_of_ne
      intro hkk
      exact hno _ (List.mem_cons_self _ _) v0 (by rw [hkk])

/-- What `GetGrubConfig` does on a target root whose config file is a readable
regular file: one `os.Stat`, one `os.ReadFile`, then the loop over the lines. -/
theorem GetGrubConfig_readable (Join : List GoString → GoString) (fs : FileSystem)
    (targetRoot content : GoString)
    (h : fs.node (Join [targetRoot, lit "/etc/default/grub"]) =
      some { data := content, readErr := none }) :
    GetGrubConfig Join fs targetRoot =
      ((match GetGrubConfig.loop (strings.Split content NL) ∅ with
        | .returned config => .returned (some config, none)
        | .panicked msg => .panicked msg),
       { fs with trace := fs.trace ++
          [Syscall.Stat (Join [targetRoot, lit "/etc/default/grub"]),
           Syscall.ReadFile (Join [targetRoot, lit "/etc/default/grub"])] }) := by
  simp only [GetGrubConfig, os.Stat, h, os.IsNotExist, os.ReadFile]
  cases GetGrubConfig.loop (strings.Split content NL) ∅ <;> simp

/-! ## Reading the configuration -/

/-- When `os.Stat` reports `<targetRoot>/etc/default/grub` as not existing (the
path is plainly absent, error `ENOENT`), `GetGrubConfig` returns the empty map
and a nil error; the only call it makes is that `os.Stat`, so no file is read
and the file system is left as it was. -/
theorem GetGrubConfig_stat_not_exist (Join : List GoString → GoString) (fs : FileSystem)
    (targetRoot : GoString)
    (h : fs.node (Join [targetRoot, lit "/etc/default/grub"]) = none)
    (hlookup : fs.lookupErr (Join [targetRoot, lit "/etc/default/grub"]) = none) :
    (GetGrubConfig Join fs targetRoot).1 = .returned (some ∅, none) ∧
    (GetGrubConfig Join fs targetRoot).2 =
      { fs with trace := fs.trace ++
          [Syscall.Stat (Join [targetRoot, lit "/etc/default/grub"])] } := by
  constructor <;>
    simp [GetGrubConfig, os.Stat, h, hlookup, FileSystem.absentErr, os.IsNotExist]

/-- When `<targetRoot>/etc/default/grub` does not exist and `os.Stat` fails with
an error other than `ENOENT`, `GetGrubConfig` goes on to `os.ReadFile`, which
fails, and returns a nil map with a non-nil error. -/
theorem GetGrubConfig_stat_other_error (Join : List GoString → GoString) (fs : FileSystem)
    (targetRoot : GoString) (e : Errno)
    (h : fs.node (Join [targetRoot, lit "/etc/default/grub"]) = none)
    (hlookup : fs.lookupErr (Join [targetRoot, lit "/etc/default/grub"]) = some e)
    (he : e ≠ .ENOENT) :
    ∃ err, (GetGrubConfig Join fs targetRoot).1 = .returned (none, some err) := by
  cases e <;>
    simp [GetGrubConfig, os.Stat, os.ReadFile, h, hlookup, FileSystem.absentErr,
      os.IsNotExist] at he ⊢

/-- C1, at the target root `/mnt` in which `/mnt/etc` is a regular file, so that
`/mnt/etc/default/grub` does not exist: `os.Stat` fails with `ENOTDIR`,
`os.IsNotExist` is false, `GetGrubConfig` calls `os.ReadFile` and returns a nil
map with the error of the failed read, not the empty map with a nil error. -/
theorem GetGrubConfig_missing_file_not_a_directory :
    etcIsRegularFile.node (joinClean [lit "/mnt", lit "/etc/default/grub"]) = none ∧
    (GetGrubConfig joinClean etcIsRegularFile (lit "/mnt")).1 =
      .returned (none, some (.errorString (lit
        "Failed to read GRUB config file: open /mnt/etc/default/grub: not a directory"))) ∧
    (GetGrubConfig joinClean etcIsRegularFile (lit "/mnt")).1 ≠
      .returned (some ∅, none) ∧
    (GetGrubConfig joinClean etcIsRegularFile (lit "/mnt")).2.trace =
      [Syscall.Stat (lit "/mnt/etc/default/grub"),
       Syscall.ReadFile (lit "/mnt/etc/default/grub")] := by
  refine ⟨by decide, by decide, by decide, by decide⟩

/-- C2: last value wins per key on read. For a readable config file in which
every newline-separated line holds `=`, `GetGrubConfig` returns a map and a nil
error; a key `k` is in the map exactly when some line is `k`, then `=`, then
some text, with no `=` inside `k`; and the map sends `k` to the text after the
first `=` of the last line of that shape. -/
theorem GetGrubConfig_last_value_wins (Join : List GoString → GoString) (fs : FileSystem)
    (targetRoot content : GoString)
    (hfile : fs.node (Join [targetRoot, lit "/etc/default/grub"]) =
      some { data := content, readErr := none })
    (hlines : ∀ line ∈ content.splitOn NL, EQ ∈ line) :
    ∃ config : GrubConfig,
      (GetGrubConfig Join fs targetRoot).1 = .returned (some config, none) ∧
      ∀ k : GoString,
        (k ∈ config ↔ ∃ line ∈ content.splitOn NL, ∃ v, line = k ++ EQ :: v ∧ EQ ∉ k) ∧
        (∀ pre v post, content.splitOn NL = pre ++ (k ++ EQ :: v) :: post → EQ ∉ k →
          (∀ line ∈ post, ∀ v', line ≠ k ++ EQ :: v') → config.lookup k = some v) := by
  rw [GetGrubConfig_readable Join fs targetRoot content hfile, strings.Split_eq_splitOn]
  obtain ⟨config, hret, hspec⟩ := loop_returns (content.splitOn NL) ∅ hlines
  refine ⟨config, by simp [hret], fun k => ?_⟩
  obtain ⟨hmem, hlast, _⟩ := hspec k
  refine ⟨⟨fun hk => ?_, fun hk => hmem.mpr (Or.inr hk)⟩, hlast⟩
  rcases hmem.mp hk with h0 | h1
  · exact absurd h0 Finmap.not_mem_empty
  · exact h1

theorem GetGrubConfig_last_value_wins_witness :
    (oneFile (lit "/mnt/etc/default/grub") (lit "a=1\nb=2\na=3")).node
        (joinClean [lit "/mnt", lit "/etc/default/grub"]) =
      some { data := lit "a=1\nb=2\na=3", readErr := none } ∧
    (∀ line ∈ (lit "a=1\nb=2\na=3").splitOn NL, EQ ∈ line) ∧
    ∃ config : GrubConfig,
      (GetGrubConfig joinClean (oneFile (lit "/mnt/etc/default/grub") (lit "a=1\nb=2\na=3"))
        (lit "/mnt")).1 = .returned (some config, none) ∧
      ∀ k : GoString,
        (k ∈ config ↔
          ∃ line ∈ (lit "a=1\nb=2\na=3").splitOn NL, ∃ v, line = k ++ EQ :: v ∧ EQ ∉ k) ∧
        (∀ pre v post, (lit "a=1\nb=2\na=3").splitOn NL = pre ++ (k ++ EQ :: v) :: post →
          EQ ∉ k → (∀ line ∈ post, ∀ v', line ≠ k ++ EQ :: v') → config.lookup k = some v) :=
  ⟨by decide, by decide,
    GetGrubConfig_last_value_wins joinClean
      (oneFile (lit "/mnt/etc/default/grub") (lit "a=1\nb=2\na=3")) (lit "/mnt")
      (lit "a=1\nb=2\na=3") (by decide) (by decide)⟩

/-- C3: no quoting and no escaping on read. For a key `k` without `=` and without
newline and a value `v` without newline, `GetGrubConfig` on a file whose whole
content is `k ++ "=" ++ v` returns the one-entry map that sends `k` to `v`, the
bytes of `v` unchanged, and a nil error. -/
theorem GetGrubConfig_single_line (Join : List GoString → GoString) (fs : FileSystem)
    (targetRoot k v : GoString)
    (hfile : fs.node (Join [targetRoot, lit "/etc/default/grub"]) =
      some { data := k ++ lit "=" ++ v, readErr := none })
    (hk : EQ ∉ k) (hkn : NL ∉ k) (hv : NL ∉ v) :
    (GetGrubConfig Join fs targetRoot).1 =
      .returned (some (Finmap.singleton k v : GrubConfig), none) ∧
    (Finmap.singleton k v : GrubConfig).lookup k = some v ∧
    ∀ k', k' ∈ (Finmap.singleton k v : GrubConfig) ↔ k' = k := by
  have hlit : lit "=" = [EQ] := rfl
  have hcontent : k ++ lit "=" ++ v = k ++ EQ :: v := by rw [hlit]; simp
  have hnl : NL ∉ k ++ EQ :: v := by
    simp only [List.mem_append, List.mem_cons, not_or]
    exact ⟨hkn, by decide, hv⟩
  have hsplit : strings.Split (k ++ EQ :: v) NL = [k ++ EQ :: v] := by
    unfold strings.Split strings.genSplit
    simp only [show ¬ ((-1 : Int) = 0) from by decide, if_false]
    exact strings.genSplitLoop_not_mem NL _ _ hnl
  rw [hcontent] at hfile
  rw [GetGrubConfig_readable Join fs targetRoot _ hfile, hsplit, loop_cons_cut k v [] ∅ hk]
  refine ⟨?_, Finmap.lookup_singleton_eq, fun k' => Finmap.mem_singleton k' k v⟩
  have : (∅ : GrubConfig).insert k v = (Finmap.singleton k v : GrubConfig) := by
    apply Finmap.ext_lookup
    intro x
    by_cases hx : x = k
    · subst hx; rw [Finmap.lookup_insert, Finmap.lookup_singleton_eq]
    · rw [Finmap.lookup_insert_of_ne _ hx, Finmap.lookup_empty]
      symm
      rw [Finmap.lookup_eq_none, Finmap.mem_singleton]
      exact hx
  simp [GetGrubConfig.loop, this]

theorem GetGrubConfig_single_line_witness :
    (oneFile (lit "/mnt/etc/default/grub")
        (lit "GRUB_CMDLINE" ++ lit "=" ++ lit " \"quiet a=b\" \\ ")).node
        (joinClean [lit "/mnt", lit "/etc/default/grub"]) =
      some { data := lit "GRUB_CMDLINE" ++ lit "=" ++ lit " \"quiet a=b\" \\ ",
             readErr := none } ∧
    EQ ∉ lit "GRUB_CMDLINE" ∧ NL ∉ lit "GRUB_CMDLINE" ∧ NL ∉ lit " \"quiet a=b\" \\ " ∧
    (GetGrubConfig joinClean
        (oneFile (lit "/mnt/etc/default/grub")
          (lit "GRUB_CMDLINE" ++ lit "=" ++ lit " \"quiet a=b\" \\ "))
        (lit "/mnt")).1 =
      .returned (some (Finmap.singleton (lit "GRUB_CMDLINE") (lit " \"quiet a=b\" \\ ") :
        GrubConfig), none) :=
  ⟨by decide, by decide, by decide, by decide,
    (GetGrubConfig_single_line joinClean
      (oneFile (lit "/mnt/etc/default/grub")
        (lit "GRUB_CMDLINE" ++ lit "=" ++ lit " \"quiet a=b\" \\ "))
      (lit "/mnt") (lit "GRUB_CMDLINE") (lit " \"quiet a=b\" \\ ")
      (by decide) (by decide) (by decide) (by decide)).1⟩

/-- C9: for a readable config file, the index `kv[1]` is in bounds on every line,
so that `GetGrubConfig` returns a map and a nil error, exactly when every piece
between the newlines of the content holds `=`; otherwise the call panics. The
pieces include the empty piece of an empty file and the empty piece after a final
newline. -/
theorem GetGrubConfig_returns_iff (Join : List GoString → GoString) (fs : FileSystem)
    (targetRoot content : GoString)
    (hfile : fs.node (Join [targetRoot, lit "/etc/default/grub"]) =
      some { data := content, readErr := none }) :
    ((∃ config, (GetGrubConfig Join fs targetRoot).1 = .returned (some config, none)) ↔
      ∀ piece ∈ content.splitOn NL, EQ ∈ piece) ∧
    ((∃ piece ∈ content.splitOn NL, EQ ∉ piece) →
      (GetGrubConfig Join fs targetRoot).1 = .panicked indexPanic) ∧
    (content = [] → [] ∈ content.splitOn NL) ∧
    (∀ c, content = c ++ [NL] → [] ∈ content.splitOn NL) := by
  rw [GetGrubConfig_readable Join fs targetRoot content hfile, strings.Split_eq_splitOn]
  refine ⟨⟨?_, ?_⟩, ?_, ?_, ?_⟩
  · rintro ⟨config, hc⟩
    by_contra hno
    push_neg at hno
    rw [loop_panics _ ∅ hno] at hc
    simp at hc
  · intro hall
    obtain ⟨config, hret, _⟩ := loop_returns (content.splitOn NL) ∅ hall
    exact ⟨config, by simp [hret]⟩
  · intro hno
    simp [loop_panics _ ∅ hno]
  · rintro rfl
    simp
  · rintro c rfl
    obtain ⟨p, ps, h⟩ := strings.splitOn_newline_end c NL
    rw [h]
    simp

theorem GetGrubConfig_returns_iff_witness :
    (oneFile (lit "/mnt/etc/default/grub") (lit "a=1\n")).node
        (joinClean [lit "/mnt", lit "/etc/default/grub"]) =
      some { data := lit "a=1\n", readErr := none } ∧
    (GetGrubConfig joinClean (oneFile (lit "/mnt/etc/default/grub") (lit "a=1\n"))
      (lit "/mnt")).1 = .panicked indexPanic :=
  ⟨by decide,
    (GetGrubConfig_returns_iff joinClean (oneFile (lit "/mnt/etc/default/grub") (lit "a=1\n"))
      (lit "/mnt") (lit "a=1\n") (by decide)).2.1 ⟨[], by decide, by decide⟩⟩

/-! ## Writing the configuration -/

/-- The line that `fmt.Sprintf("%s=%s\n", k, v)` formats. -/
theorem Sprintf_assignment (k v : GoString) :
    fmt.Sprintf (lit "%s=%s\n") [k, v] = k ++ lit "=" ++ v ++ lit "\n" := by
  have h : fmt.Sprintf (lit "%s=%s\n") [k, v] = k ++ EQ :: (v ++ [NL]) := rfl
  have h1 : lit "=" = [EQ] := rfl
  have h2 : lit "\n" = [NL] := rfl
  rw [h, h1, h2]
  simp

theorem foldl_append_eq_flatten {α : Type} (f : α → GoString) (l : List α) (init : GoString) :
    l.foldl (fun acc a => acc ++ f a) init = init ++ (l.map f).flatten := by
  induction l generalizing init with
  | nil => simp
  | cons a l ih => simp [ih]

/-- The bytes accumulated by `WriteGrubConfig`: one line `key=value\n` per visited
entry, in the order of the visits. -/
theorem fileContents_eq {config : GrubConfig} (range : RangeOrder config) :
    WriteGrubConfig.fileContents range =
      (range.visits.map (fun kv => kv.1 ++ lit "=" ++ kv.2 ++ lit "\n")).flatten := by
  have h := foldl_append_eq_flatten
    (fun kv : Sigma (fun _ : GoString => GoString) => fmt.Sprintf (lit "%s=%s\n") [kv.1, kv.2])
    range.visits []
  simp only [List.nil_append] at h
  unfold WriteGrubConfig.fileContents
  rw [h]
  simp only [Sprintf_assignment]

/-- What `WriteGrubConfig` returns and leaves behind, in terms of the one call to
`os.WriteFile` it makes. -/
theorem WriteGrubConfig_eq (Join : List GoString → GoString) (fs : FileSystem)
    (targetRoot : GoString) (config : GrubConfig) (range : RangeOrder config) :
    (WriteGrubConfig Join fs targetRoot config range).2 =
        (os.WriteFile fs (Join [targetRoot, lit "/etc/default/grub"])
          (WriteGrubConfig.fileContents range)).2 ∧
    ((WriteGrubConfig Join fs targetRoot config range).1 = none ↔
        (os.WriteFile fs (Join [targetRoot, lit "/etc/default/grub"])
          (WriteGrubConfig.fileContents range)).1 = none) := by
  unfold WriteGrubConfig
  rcases h : os.WriteFile fs (Join [targetRoot, lit "/etc/default/grub"])
    (WriteGrubConfig.fileContents range) with ⟨_ | err, fs₁⟩ <;> simp [h]

theorem WriteFile_trace (fs : FileSystem) (name data : GoString) :
    (os.WriteFile fs name data).2.trace = fs.trace ++ [Syscall.WriteFile name data] := by
  unfold os.WriteFile
  rcases h : fs.writeFault name with _ | ⟨e⟩ | ⟨e, n⟩ <;> simp

theorem WriteFile_success (fs : FileSystem) (name data : GoString)
    (h : (os.WriteFile fs name data).1 = none) :
    (os.WriteFile fs name data).2.node name = some (os.written fs name data) ∧
    ∀ q, q ≠ name → (os.WriteFile fs name data).2.node q = fs.node q := by
  unfold os.WriteFile at h ⊢
  rcases hf : fs.writeFault name with _ | ⟨e⟩ | ⟨e, n⟩
  · simp only [hf]
    exact ⟨by simp, fun q hq => by simp [hq]⟩
  · simp [hf] at h
  · simp [hf] at h

theorem written_data (fs : FileSystem) (name data : GoString) :
    (os.written fs name data).data = data := by
  unfold os.written
  cases fs.node name <;> rfl

/-- C4: one assignment per line on write. The bytes that `WriteGrubConfig` hands
to its one `os.WriteFile` call on `<targetRoot>/etc/default/grub` are the
concatenation of `key ++ "=" ++ value ++ "\n"` over an ordering of the entries of
the map in which every entry occurs exactly once; the empty map writes no byte,
and the length is the sum over the entries of `len(key) + len(value) + 2`. On
success these bytes are the content of the file. -/
theorem WriteGrubConfig_one_assignment_per_line (Join : List GoString → GoString)
    (fs : FileSystem) (targetRoot : GoString) (config : GrubConfig)
    (range : RangeOrder config) :
    ∃ (order : List (Sigma (fun _ : GoString => GoString))) (data : GoString),
      (order : Multiset (Sigma (fun _ : GoString => GoString))) = config.entries ∧
      order.Nodup ∧
      data = (order.map (fun kv => kv.1 ++ lit "=" ++ kv.2 ++ lit "\n")).flatten ∧
      (WriteGrubConfig Join fs targetRoot config range).2.trace =
        fs.trace ++ [Syscall.WriteFile (Join [targetRoot, lit "/etc/default/grub"]) data] ∧
      ((WriteGrubConfig Join fs targetRoot config range).1 = none →
        ((WriteGrubConfig Join fs targetRoot config range).2.node
          (Join [targetRoot, lit "/etc/default/grub"])).map File.data = some data) ∧
      (config = ∅ → data = []) ∧
      data.length = (config.entries.map (fun kv => kv.1.length + kv.2.length + 2)).sum := by
  refine ⟨range.visits, WriteGrubConfig.fileContents range, range.once, ?_,
    fileContents_eq range, ?_, ?_, ?_, ?_⟩
  · have h := config.nodupKeys
    rw [← range.once, Multiset.coe_nodupKeys] at h
    exact h.nodup
  · rw [(WriteGrubConfig_eq Join fs targetRoot config range).1, WriteFile_trace]
  · intro hok
    rw [(WriteGrubConfig_eq Join fs targetRoot config range).1]
    rw [(WriteGrubConfig_eq Join fs targetRoot config range).2] at hok
    rw [(WriteFile_success fs _ _ hok).1]
    simp [written_data]
  · intro hempty
    subst hempty
    have h := range.once
    have hnil : range.visits = [] := by
      have : (range.visits : Multiset (Sigma (fun _ : GoString => GoString))) = 0 := h
      simpa using this
    rw [fileContents_eq, hnil]
    rfl
  · rw [fileContents_eq, ← range.once, Multiset.map_coe, Multiset.sum_coe, List.length_flatten,
      List.map_map]
    congr 1
    apply List.map_congr_left
    intro kv _
    have h1 : (lit "=").length = 1 := rfl
    have h2 : (lit "\n").length = 1 := rfl
    simp only [Function.comp, List.length_append, h1, h2]
    omega

theorem WriteGrubConfig_one_assignment_per_line_witness :
    (WriteGrubConfig joinClean emptyFS (lit "/mnt") twoEntries twoEntriesRange).2.trace =
      [Syscall.WriteFile (lit "/mnt/etc/default/grub")
        (lit "GRUB_TIMEOUT=5\nGRUB_DEFAULT=saved\n")] ∧
    ∃ (order : List (Sigma (fun _ : GoString => GoString))) (data : GoString),
      (order : Multiset (Sigma (fun _ : GoString => GoString))) = twoEntries.entries ∧
      order.Nodup ∧
      data = (order.map (fun kv => kv.1 ++ lit "=" ++ kv.2 ++ lit "\n")).flatten ∧
      (WriteGrubConfig joinClean emptyFS (lit "/mnt") twoEntries twoEntriesRange).2.trace =
        emptyFS.trace ++
          [Syscall.WriteFile (joinClean [lit "/mnt", lit "/etc/default/grub"]) data] ∧
      ((WriteGrubConfig joinClean emptyFS (lit "/mnt") twoEntries twoEntriesRange).1 = none →
        ((WriteGrubConfig joinClean emptyFS (lit "/mnt") twoEntries twoEntriesRange).2.node
          (joinClean [lit "/mnt", lit "/etc/default/grub"])).map File.data = some data) ∧
      (twoEntries = ∅ → data = []) ∧
      data.length = (twoEntries.entries.map (fun kv => kv.1.length + kv.2.length + 2)).sum :=
  ⟨by decide,
    WriteGrubConfig_one_assignment_per_line joinClean emptyFS (lit "/mnt") twoEntries
      twoEntriesRange⟩

/-- C5: overwrite on every write. After a successful `WriteGrubConfig` the content
of `<targetRoot>/etc/default/grub` is the bytes built from the map (in the order
of this run of the loop), whatever the file held before: from any other prior
state `fs'` the same bytes result; every other path holds what it held; and when
`os.WriteFile` fails, `WriteGrubConfig` returns a non-nil error. -/
theorem WriteGrubConfig_overwrites (Join : List GoString → GoString) (fs fs' : FileSystem)
    (targetRoot : GoString) (config : GrubConfig) (range : RangeOrder config) :
    ((WriteGrubConfig Join fs targetRoot config range).1 = none →
      ((WriteGrubConfig Join fs targetRoot config range).2.node
          (Join [targetRoot, lit "/etc/default/grub"])).map File.data =
        some (WriteGrubConfig.fileContents range) ∧
      (∀ q, q ≠ Join [targetRoot, lit "/etc/default/grub"] →
        (WriteGrubConfig Join fs targetRoot config range).2.node q = fs.node q) ∧
      ((WriteGrubConfig Join fs' targetRoot config range).1 = none →
        ((WriteGrubConfig Join fs' targetRoot config range).2.node
            (Join [targetRoot, lit "/etc/default/grub"])).map File.data =
          ((WriteGrubConfig Join fs targetRoot config range).2.node
            (Join [targetRoot, lit "/etc/default/grub"])).map File.data)) ∧
    ((os.WriteFile fs (Join [targetRoot, lit "/etc/default/grub"])
        (WriteGrubConfig.fileContents range)).1 ≠ none →
      (WriteGrubConfig Join fs targetRoot config range).1 ≠ none) := by
  have key : ∀ g : FileSystem, (WriteGrubConfig Join g targetRoot config range).1 = none →
      ((WriteGrubConfig Join g targetRoot config range).2.node
          (Join [targetRoot, lit "/etc/default/grub"])).map File.data =
        some (WriteGrubConfig.fileContents range) ∧
      (∀ q, q ≠ Join [targetRoot, lit "/etc/default/grub"] →
        (WriteGrubConfig Join g targetRoot config range).2.node q = g.node q) := by
    intro g hok
    rw [(WriteGrubConfig_eq Join g targetRoot config range).2] at hok
    rw [(WriteGrubConfig_eq Join g targetRoot config range).1]
    obtain ⟨h1, h2⟩ := WriteFile_success g _ _ hok
    exact ⟨by rw [h1]; simp [written_data], h2⟩
  refine ⟨fun hok => ⟨(key fs hok).1, (key fs hok).2, fun hok' => ?_⟩, fun hfail hnil => ?_⟩
  · rw [(key fs hok).1, (key fs' hok').1]
  · exact hfail ((WriteGrubConfig_eq Join fs targetRoot config range).2.mp hnil)

theorem WriteGrubConfig_overwrites_witness :
    (WriteGrubConfig joinClean (oneFile (lit "/mnt/etc/default/grub") (lit "OLD=1\nKEEP=2\n"))
      (lit "/mnt") twoEntries twoEntriesRange).1 = none ∧
    ((WriteGrubConfig joinClean (oneFile (lit "/mnt/etc/default/grub") (lit "OLD=1\nKEEP=2\n"))
      (lit "/mnt") twoEntries twoEntriesRange).2.node
        (joinClean [lit "/mnt", lit "/etc/default/grub"])).map File.data =
      some (WriteGrubConfig.fileContents twoEntriesRange) ∧
    WriteGrubConfig.fileContents twoEntriesRange = lit "GRUB_TIMEOUT=5\nGRUB_DEFAULT=saved\n" :=
  ⟨by decide,
    ((WriteGrubConfig_overwrites joinClean
      (oneFile (lit "/mnt/etc/default/grub") (lit "OLD=1\nKEEP=2\n")) emptyFS (lit "/mnt")
      twoEntries twoEntriesRange).1 (by decide)).1,
    by decide⟩

/-! ## Write, then read -/

/-- The bytes written by `WriteGrubConfig` are empty or end in a newline. -/
theorem fileContents_nil_or_newline {config : GrubConfig} (range : RangeOrder config) :
    WriteGrubConfig.fileContents range = [] ∨
      ∃ c, WriteGrubConfig.fileContents range = c ++ [NL] := by
  rw [fileContents_eq]
  rcases List.eq_nil_or_concat range.visits with h | ⟨l, kv, h⟩
  · left; rw [h]; rfl
  · right
    have h2 : lit "\n" = [NL] := rfl
    refine ⟨(l.map (fun kv => kv.1 ++ lit "=" ++ kv.2 ++ lit "\n")).flatten ++
      (kv.1 ++ lit "=" ++ kv.2), ?_⟩
    rw [h, h2]
    simp

/-- Reading back what `WriteGrubConfig` wrote: whenever the write succeeded and
the file is readable, `GetGrubConfig` panics on the last piece of the content,
which is empty. -/
theorem GetGrubConfig_after_WriteGrubConfig (Join : List GoString → GoString)
    (fs : FileSystem) (targetRoot : GoString) (config : GrubConfig)
    (range : RangeOrder config)
    (hok : (WriteGrubConfig Join fs targetRoot config range).1 = none)
    (hread : ∀ f, fs.node (Join [targetRoot, lit "/etc/default/grub"]) = some f →
      f.readErr = none) :
    (GetGrubConfig Join (WriteGrubConfig Join fs targetRoot config range).2 targetRoot).1 =
      .panicked indexPanic := by
  rw [(WriteGrubConfig_eq Join fs targetRoot config range).2] at hok
  rw [(WriteGrubConfig_eq Join fs targetRoot config range).1]
  have hnode := (WriteFile_success fs _ _ hok).1
  have hw : os.written fs (Join [targetRoot, lit "/etc/default/grub"])
      (WriteGrubConfig.fileContents range) =
      { data := WriteGrubConfig.fileContents range, readErr := none } := by
    unfold os.written
    cases hf : fs.node (Join [targetRoot, lit "/etc/default/grub"]) with
    | none => rfl
    | some f => simp [hread f hf]
  rw [hw] at hnode
  rw [GetGrubConfig_readable Join _ targetRoot _ hnode, strings.Split_eq_splitOn]
  have hpiece : ∃ l ∈ (WriteGrubConfig.fileContents range).splitOn NL, EQ ∉ l := by
    refine ⟨[], ?_, by simp⟩
    rcases fileContents_nil_or_newline range with h | ⟨c, h⟩
    · rw [h]; simp
    · obtain ⟨p, ps, hp⟩ := strings.splitOn_newline_end c NL
      rw [h, hp]; simp
  rw [loop_panics _ ∅ hpiece]

/-- C8, at the map `GRUB_TIMEOUT -> 5`, `GRUB_DEFAULT -> saved` and at the empty
map, on a target root without config file: `WriteGrubConfig` succeeds and the
`GetGrubConfig` that follows does not return the map: it panics. -/
theorem round_trip_panics :
    (WriteGrubConfig joinClean emptyFS (lit "/mnt") twoEntries twoEntriesRange).1 = none ∧
    (GetGrubConfig joinClean
      (WriteGrubConfig joinClean emptyFS (lit "/mnt") twoEntries twoEntriesRange).2
      (lit "/mnt")).1 = .panicked indexPanic ∧
    (WriteGrubConfig joinClean emptyFS (lit "/mnt") ∅ emptyRange).1 = none ∧
    (GetGrubConfig joinClean
      (WriteGrubConfig joinClean emptyFS (lit "/mnt") ∅ emptyRange).2
      (lit "/mnt")).1 = .panicked indexPanic := by
  refine ⟨by decide, by decide, by decide, by decide⟩

/-! ## Removing a script -/

/-- C10: when `<targetRoot>/etc/grub.d/<scriptName>` does not exist,
`RemoveGrubScript` returns a non-nil error and the file system stays as it was:
every path resolves to what it resolved to and the faults are the same; the
calls made are the `os.Stat`, and after it an `os.Remove` that fails when the
`os.Stat` failed with an error other than `ENOENT`. When the path exists and
`os.Remove` meets no fault, `RemoveGrubScript` returns nil, that path no longer
exists and every other path holds what it held. -/
theorem RemoveGrubScript_spec (Join : List GoString → GoString) (fs : FileSystem)
    (targetRoot scriptName : GoString) :
    (fs.node (Join [targetRoot, lit "/etc/grub.d", scriptName]) = none →
      (RemoveGrubScript Join fs targetRoot scriptName).1 ≠ none ∧
      (RemoveGrubScript Join fs targetRoot scriptName).2.node = fs.node ∧
      (RemoveGrubScript Join fs targetRoot scriptName).2.lookupErr = fs.lookupErr ∧
      (RemoveGrubScript Join fs targetRoot scriptName).2.writeFault = fs.writeFault ∧
      (RemoveGrubScript Join fs targetRoot scriptName).2.removeErr = fs.removeErr ∧
      ((RemoveGrubScript Join fs targetRoot scriptName).2.trace = fs.trace ++
          [Syscall.Stat (Join [targetRoot, lit "/etc/grub.d", scriptName])] ∨
        (RemoveGrubScript Join fs targetRoot scriptName).2.trace = fs.trace ++
          [Syscall.Stat (Join [targetRoot, lit "/etc/grub.d", scriptName]),
           Syscall.Remove (Join [targetRoot, lit "/etc/grub.d", scriptName])])) ∧
    (fs.node (Join [targetRoot, lit "/etc/grub.d", scriptName]) ≠ none →
      fs.removeErr (Join [targetRoot, lit "/etc/grub.d", scriptName]) = none →
      (RemoveGrubScript Join fs targetRoot scriptName).1 = none ∧
      (RemoveGrubScript Join fs targetRoot scriptName).2.node
        (Join [targetRoot, lit "/etc/grub.d", scriptName]) = none ∧
      ∀ q, q ≠ Join [targetRoot, lit "/etc/grub.d", scriptName] →
        (RemoveGrubScript Join fs targetRoot scriptName).2.node q = fs.node q) := by
  constructor
  · intro h
    rcases hl : fs.lookupErr (Join [targetRoot, lit "/etc/grub.d", scriptName]) with _ | e
    · simp [RemoveGrubScript, os.Stat, h, hl, FileSystem.absentErr, os.IsNotExist]
    · cases e <;>
        simp [RemoveGrubScript, os.Stat, os.Remove, h, hl, FileSystem.absentErr,
          os.IsNotExist]
  · intro h hrm
    obtain ⟨f, hf⟩ := Option.ne_none_iff_exists'.mp h
    refine ⟨?_, ?_, fun q hq => ?_⟩ <;>
      simp [RemoveGrubScript, os.Stat, hf, os.IsNotExist, os.Remove, hrm]
    exact fun hq' => absurd hq' hq

theorem RemoveGrubScript_spec_witness :
    (RemoveGrubScript joinClean emptyFS (lit "/mnt") (lit "10_linux")).1 ≠ none ∧
    etcIsRegularFile.node (joinClean [lit "/mnt", lit "/etc/grub.d", lit "10_linux"]) = none ∧
    (RemoveGrubScript joinClean etcIsRegularFile (lit "/mnt") (lit "10_linux")).1 ≠ none ∧
    (RemoveGrubScript joinClean etcIsRegularFile (lit "/mnt") (lit "10_linux")).2.node =
      etcIsRegularFile.node ∧
    (RemoveGrubScript joinClean (oneFile (lit "/mnt/etc/grub.d/10_linux") (lit "#!/bin/sh\n"))
      (lit "/mnt") (lit "10_linux")).1 = none ∧
    (RemoveGrubScript joinClean (oneFile (lit "/mnt/etc/grub.d/10_linux") (lit "#!/bin/sh\n"))
      (lit "/mnt") (lit "10_linux")).2.node
        (joinClean [lit "/mnt", lit "/etc/grub.d", lit "10_linux"]) = none :=
  ⟨((RemoveGrubScript_spec joinClean emptyFS (lit "/mnt") (lit "10_linux")).1 rfl).1,
    by decide,
    ((RemoveGrubScript_spec joinClean etcIsRegularFile (lit "/mnt") (lit "10_linux")).1
      (by decide)).1,
    ((RemoveGrubScript_spec joinClean etcIsRegularFile (lit "/mnt") (lit "10_linux")).1
      (by decide)).2.1,
    ((RemoveGrubScript_spec joinClean
      (oneFile (lit "/mnt/etc/grub.d/10_linux") (lit "#!/bin/sh\n")) (lit "/mnt")
      (lit "10_linux")).2 (by decide) rfl).1,
    ((RemoveGrubScript_spec joinClean
      (oneFile (lit "/mnt/etc/grub.d/10_linux") (lit "#!/bin/sh\n")) (lit "/mnt")
      (lit "10_linux")).2 (by decide) rfl).2.1⟩

/-- The call of `RemoveGrubScript` on a script below `/mnt/etc`, a regular file:
the script does not exist, `os.Stat` fails with `ENOTDIR`, the guard does not
fire, `os.Remove` is called and its error is returned. -/
theorem RemoveGrubScript_not_a_directory :
    (RemoveGrubScript joinClean etcIsRegularFile (lit "/mnt") (lit "10_linux")).1 =
      some (.errorString (lit
        "Error removing GRUB script: remove /mnt/etc/grub.d/10_linux: not a directory")) ∧
    (RemoveGrubScript joinClean etcIsRegularFile (lit "/mnt") (lit "10_linux")).2.trace =
      [Syscall.Stat (lit "/mnt/etc/grub.d/10_linux"),
       Syscall.Remove (lit "/mnt/etc/grub.d/10_linux")] := by
  refine ⟨by decide, by decide⟩

/-! ## Installing the bootloader -/

/-- A `%s` in the format is replaced by the next operand. -/
theorem Sprintf_verb (rest a : GoString) (args : List GoString) :
    fmt.Sprintf (37 :: 115 :: rest) (a :: args) = a ++ fmt.Sprintf rest args := by
  simp [fmt.Sprintf]

/-- Bytes of the format other than `%` are copied. -/
theorem Sprintf_plain (p rest : GoString) (args : List GoString) (h : (37 : Byte) ∉ p) :
    fmt.Sprintf (p ++ rest) args = p ++ fmt.Sprintf rest args := by
  induction p with
  | nil => rfl
  | cons c cs ih =>
    have hc : c ≠ 37 := fun e => h (by simp [e])
    have hcs : (37 : Byte) ∉ cs := fun e => h (List.mem_cons_of_mem _ e)
    have hstep : ∀ l : GoString, fmt.Sprintf (c :: l) args = c :: fmt.Sprintf l args := by
      intro l
      cases l with
      | nil => simp [fmt.Sprintf, hc]
      | cons d ds => simp [fmt.Sprintf, hc]
    rw [List.cons_append, hstep, ih hcs, List.cons_append]

/-- The command line that `RunGrubInstall` formats. -/
theorem Sprintf_grubInstallCmd (bootDirectory target diskPath : GoString) :
    fmt.Sprintf (lit "grub-install --boot-directory %s --target=%s %s")
        [bootDirectory, target, diskPath] =
      lit "grub-install --boot-directory " ++ bootDirectory ++ lit " --target=" ++ target ++
        lit " " ++ diskPath := by
  have hfmt : lit "grub-install --boot-directory %s --target=%s %s" =
      lit "grub-install --boot-directory " ++ (37 :: 115 :: (lit " --target=" ++
        (37 :: 115 :: (lit " " ++ [37, 115])))) := by decide
  have h1 : (37 : Byte) ∉ lit "grub-install --boot-directory " := by decide
  have h2 : (37 : Byte) ∉ lit " --target=" := by decide
  have h3 : (37 : Byte) ∉ lit " " := by decide
  rw [hfmt, Sprintf_plain _ _ _ h1, Sprintf_verb, Sprintf_plain _ _ _ h2, Sprintf_verb,
    Sprintf_plain _ _ _ h3, Sprintf_verb]
  simp [fmt.Sprintf]

/-- C6: `RunGrubInstall` makes exactly one call to the chroot command runner, with
`targetRoot` as it stands and the command line `grub-install --boot-directory
<bootDirectory> --target=<target> <diskPath>`: the state it leaves is the state
left by that one call (for a runner that records its calls, one more call is on
record), and it returns nil exactly when that call returned nil. The target is
`i386-pc` for `BIOS` and `x86_64-efi` for `EFI`. -/
theorem RunGrubInstall_spec {σ : Type}
    (RunInChroot : σ → GoString → GoString → Option GoError × σ) (s : σ)
    (targetRoot bootDirectory diskPath : GoString) (target : FirmwareType)
    (result : GoString → GoString → Option GoError) (calls : List (GoString × GoString)) :
    (RunGrubInstall RunInChroot s targetRoot bootDirectory diskPath target).2 =
      (RunInChroot s targetRoot
        (lit "grub-install --boot-directory " ++ bootDirectory ++ lit " --target=" ++ target ++
          lit " " ++ diskPath)).2 ∧
    ((RunGrubInstall RunInChroot s targetRoot bootDirectory diskPath target).1 = none ↔
      (RunInChroot s targetRoot
        (lit "grub-install --boot-directory " ++ bootDirectory ++ lit " --target=" ++ target ++
          lit " " ++ diskPath)).1 = none) ∧
    (RunGrubInstall (recordingRunner result) calls targetRoot bootDirectory diskPath
        target).2 =
      calls ++ [(targetRoot,
        lit "grub-install --boot-directory " ++ bootDirectory ++ lit " --target=" ++ target ++
          lit " " ++ diskPath)] ∧
    (RunGrubInstall (recordingRunner result) calls targetRoot bootDirectory diskPath BIOS).2 =
      calls ++ [(targetRoot,
        lit "grub-install --boot-directory " ++ bootDirectory ++ lit " --target=i386-pc " ++
          diskPath)] ∧
    (RunGrubInstall (recordingRunner result) calls targetRoot bootDirectory diskPath EFI).2 =
      calls ++ [(targetRoot,
        lit "grub-install --boot-directory " ++ bootDirectory ++ lit " --target=x86_64-efi " ++
          diskPath)] := by
  have key : ∀ {τ : Type} (run : τ → GoString → GoString → Option GoError × τ) (t : τ)
      (tgt : FirmwareType),
      (RunGrubInstall run t targetRoot bootDirectory diskPath tgt).2 =
        (run t targetRoot
          (lit "grub-install --boot-directory " ++ bootDirectory ++ lit " --target=" ++ tgt ++
            lit " " ++ diskPath)).2 ∧
      ((RunGrubInstall run t targetRoot bootDirectory diskPath tgt).1 = none ↔
        (run t targetRoot
          (lit "grub-install --boot-directory " ++ bootDirectory ++ lit " --target=" ++ tgt ++
            lit " " ++ diskPath)).1 = none) := by
    intro τ run t tgt
    unfold RunGrubInstall
    simp only [Sprintf_grubInstallCmd]
    rcases h : run t targetRoot
      (lit "grub-install --boot-directory " ++ bootDirectory ++ lit " --target=" ++ tgt ++
        lit " " ++ diskPath) with ⟨_ | err, t₁⟩ <;> simp
  have hbios : lit " --target=" ++ BIOS ++ lit " " = lit " --target=i386-pc " := by decide
  have hefi : lit " --target=" ++ EFI ++ lit " " = lit " --target=x86_64-efi " := by decide
  refine ⟨(key RunInChroot s target).1, (key RunInChroot s target).2, ?_, ?_, ?_⟩
  · rw [(key (recordingRunner result) calls target).1]
    rfl
  · rw [(key (recordingRunner result) calls BIOS).1, ← hbios]
    simp [recordingRunner]
  · rw [(key (recordingRunner result) calls EFI).1, ← hefi]
    simp [recordingRunner]

/-! ## Record or string -/

/-- C7: record/string interchangeability. For every physical volume, its record
and its raw device-path string resolve to the same identity, so `Pvremove` and
`Pvresize` issue the same invocation on either form, and so does `Vgcreate` when
any of its member arguments, records and strings mixed, are replaced by the
strings of their identities. -/
theorem record_string_interchangeable {Gb : Type} (pv : PhysicalVolume Gb) :
    (PvRef.Record pv).resolve = (PvRef.Identity pv.Path : PvRef Gb).resolve ∧
    Pvremove (PvRef.Record pv) = Pvremove (PvRef.Identity pv.Path) ∧
    (∀ setPvSize : Option Gb,
      Pvresize (PvRef.Record pv) setPvSize = Pvresize (PvRef.Identity pv.Path) setPvSize) ∧
    (∀ (name : GoString) (before after : List (PvRef Gb)),
      Vgcreate name (before ++ PvRef.Record pv :: after) =
        Vgcreate name (before ++ PvRef.Identity pv.Path :: after)) ∧
    (∀ (name : GoString) (pvs : List (PvRef Gb)),
      Vgcreate name pvs = Vgcreate name (pvs.map (fun r => PvRef.Identity r.resolve))) := by
  refine ⟨rfl, rfl, fun _ => rfl, fun name before after => ?_, fun name pvs => ?_⟩
  · cases before <;> simp [Vgcreate, PvRef.resolve]
  · cases pvs with
    | nil => rfl
    | cons r rs =>
      simp only [Vgcreate, List.map_cons, List.map_map]
      congr 3

/-! ## The model at concrete inputs -/

/-- The pieces that `strings.Split` and `strings.SplitN` give on small inputs: an
empty string is one empty piece, a final newline is followed by an empty piece,
and `SplitN` with `n = 2` cuts at the first `=` only. -/
theorem strings_at_inputs :
    strings.Split (lit "a=1\nb=2") NL = [lit "a=1", lit "b=2"] ∧
    strings.Split (lit "") NL = [[]] ∧
    strings.Split (lit "a=1\n") NL = [lit "a=1", []] ∧
    strings.SplitN (lit "a=b=c") EQ 2 = [lit "a", lit "b=c"] ∧
    strings.SplitN (lit "abc") EQ 2 = [lit "abc"] ∧
    strings.SplitN (lit "") EQ 2 = [[]] := by
  decide

/-- A config file of two lines without final newline is read as the map of its
two assignments, after one `os.Stat` and one `os.ReadFile`. -/
theorem GetGrubConfig_at_two_lines :
    (GetGrubConfig joinClean (oneFile (lit "/mnt/etc/default/grub") (lit "a=1\nb=2"))
      (lit "/mnt")).1 =
      .returned (some (((∅ : GrubConfig).insert (lit "a") (lit "1")).insert (lit "b")
        (lit "2")), none) ∧
    (GetGrubConfig joinClean (oneFile (lit "/mnt/etc/default/grub") (lit "a=1\nb=2"))
      (lit "/mnt")).2.trace =
      [Syscall.Stat (lit "/mnt/etc/default/grub"),
       Syscall.ReadFile (lit "/mnt/etc/default/grub")] := by
  decide

end Albius
